import Mathlib

/-!
Shallow embedding of the answer-augmentation pipeline of the file
modules/websearch.py of the repository Chatbot_apis.  External capabilities —
the language-model call (generate_response in modules/llm.py), the DuckDuckGo
text search, the HTTP fetch (requests.get) and the HTML-to-text extraction
(BeautifulSoup stripping of script and style elements followed by get_text) —
are modelled as oracle functions collected in an `Env`.  A failing external
call is an `Except.error` or `Option.none` outcome of the oracle; everything
the Python module itself computes (parsing, dedup, truncation, whitespace
collapsing, orchestration) is embedded as executable Lean functions over those
oracles.

Python strings are modelled as Lean `String`; Python slicing and len count
code points, as do `String.length` and `List Char`.  The Python whitespace
set of str.strip and str.split is modelled by `Char.isWhitespace` (space,
tab, CR, LF) — the difference (rare Unicode spaces) is irrelevant to every
claim below.
-/

namespace WebSearch

/-- A raw result dict yielded by the ddgs text search: fields title, href and
body, each read with dict.get and therefore possibly missing (None). -/
structure RawResult where
  title : Option String
  href : Option String
  body : Option String
  deriving DecidableEq

/-- The dict built by perform_search: key title from the raw title, key link
from the raw href, key description from the raw body.  Every key is always
present; each value may be None, hence `Option String`. -/
structure SearchResult where
  title : Option String
  link : Option String
  description : Option String
  deriving DecidableEq

/-- A `SearchResult` after web_search_task has attached the scraped content
string (key content, always a plain string). -/
structure EnrichedResult where
  title : Option String
  link : Option String
  description : Option String
  content : String
  deriving DecidableEq

/-- Outcome of requests.get with a 5-second timeout: status code and body. -/
structure HttpResponse where
  status : Nat
  body : String
  deriving DecidableEq

/-- Oracles for the external calls of the pipeline.
Field llm models await generate_response applied to a prompt — `none` both
when the underlying provider call raised (caught inside generate_response,
which then returns None) and when the provider returned no content.
Field search models the ddgs text search for a query and a max-results
count: the list of raw result dicts, or an error if the call raised.
Field httpGet models requests.get on a URL with the fixed headers and the
5-second timeout: a response, or an error (timeout, DNS failure, connection
error).  Field extractText models parsing a body with BeautifulSoup,
removing script and style elements and taking get_text with a space
separator: the visible text, or an error if parsing raised. -/
structure Env where
  llm : String → Option String
  search : String → Nat → Except String (List RawResult)
  httpGet : String → Except String HttpResponse
  extractText : String → Except String String

/-- Python split on the newline character, on the character list: split at
every newline, keeping empty pieces; always returns at least one piece.
The second argument is the current piece accumulated in reverse. -/
def splitNlAux : List Char → List Char → List (List Char)
  | [], cur => [cur.reverse]
  | c :: cs, cur =>
    if c = '\n' then cur.reverse :: splitNlAux cs []
    else splitNlAux cs (c :: cur)

/-- Python split of a string on the newline character. -/
def splitOnNl (s : String) : List String :=
  (splitNlAux s.data []).map String.mk

/-- Python str.strip with no argument: drop whitespace from both ends. -/
def pyStrip (s : String) : String :=
  ⟨((s.data.dropWhile Char.isWhitespace).reverse.dropWhile Char.isWhitespace).reverse⟩

/-- Python str.strip applied to the double-quote character: drop double
quotes from both ends. -/
def stripQuotes (s : String) : String :=
  ⟨((s.data.dropWhile (fun c => c = '"')).reverse.dropWhile (fun c => c = '"')).reverse⟩

/-- Python str.split with no argument, on the character list: maximal
non-whitespace runs, empties dropped.  The second argument is the current
word accumulated in reverse. -/
def wordsAux : List Char → List Char → List (List Char)
  | [], cur => if cur.isEmpty then [] else [cur.reverse]
  | c :: cs, cur =>
    if c.isWhitespace then
      if cur.isEmpty then wordsAux cs [] else cur.reverse :: wordsAux cs []
    else wordsAux cs (c :: cur)

/-- Python join of a list of words with a single space. -/
def joinSpace : List String → String
  | [] => ""
  | [w] => w
  | w :: ws => w ++ " " ++ joinSpace ws

/-- The basic cleanup line of scrape_content: split the text on whitespace
and join the words with single spaces, collapsing all whitespace runs and
trimming the ends. -/
def collapseWs (t : String) : String :=
  joinSpace ((wordsAux t.data []).map String.mk)

/-- Python slicing of a string to its first n code points. -/
def pyTake (s : String) (n : Nat) : String :=
  ⟨s.data.take n⟩

/-- The f-string prompt built by decompose_query. -/
def decompPrompt (user_query : String) : String :=
  "\n    You are a helpful assistant. Break down the following user query into a list of 2-3 specific search queries that would help answer the original request comprehensively.\n    Return ONLY a list of queries separated by newlines. No numbering or bullets. Do NOT use double quotes around the queries.\n    \n    User Query: \"" ++ user_query ++ "\"\n    "

/-- The list comprehension of decompose_query: keep the lines of the
response whose whitespace-strip is non-empty (Python truthiness of the
stripped line), and map each kept line to its whitespace-strip followed by a
strip of enclosing double quotes. -/
def parseSubqueries (response : String) : List String :=
  ((splitOnNl response).filter (fun q => pyStrip q ≠ "")).map
    (fun q => stripQuotes (pyStrip q))

/-- Embedding of decompose_query: one LLM call; when the response is falsy
(the call failed and returned None, or returned the empty string) fall back
to the singleton list of the original query; otherwise parse, falling back
to the singleton of the original query when the parsed list is empty. -/
def decompose_query (env : Env) (user_query : String) : List String :=
  match env.llm (decompPrompt user_query) with
  | none => [user_query]
  | some response =>
    if response = "" then [user_query]
    else
      let queries := parseSubqueries response
      if queries = [] then [user_query] else queries

/-- Embedding of perform_search: on a successful provider call, map each raw
dict to a `SearchResult` (title from title, link from href, description from
body); on any raised exception, catch it and return the empty list.  (The
Python default of 3 for num_results is never used by the pipeline, which
passes 2 explicitly, so the argument is kept explicit here.) -/
def perform_search (env : Env) (query : String) (num_results : Nat) :
    List SearchResult :=
  match env.search query num_results with
  | Except.error _ => []
  | Except.ok rs => rs.map (fun r => ⟨r.title, r.href, r.body⟩)

/-- Embedding of scrape_content: fetch with a 5-second timeout, then
raise_for_status (which raises exactly for 400 ≤ status < 600), then extract
the text via BeautifulSoup, collapse whitespace, and truncate to 2000
characters.  Every raised exception is caught and becomes the empty string.
The pipeline passes the link value, which may be None: requests.get applied
to None raises a missing-schema error, so the `none` case yields the empty
string through the same except clause. -/
def scrape_content (env : Env) (url : Option String) : String :=
  match url with
  | none => ""
  | some u =>
    match env.httpGet u with
    | Except.error _ => ""
    | Except.ok resp =>
      if 400 ≤ resp.status ∧ resp.status < 600 then ""
      else
        match env.extractText resp.body with
        | Except.error _ => ""
        | Except.ok text => pyTake (collapseWs text) 2000

/-- Python f-string rendering of a value that may be None (an f-string
prints the word None for it).  In the pipeline every dict key is present, so
the dict.get defaults of get_relevant_answer never apply and the stored —
possibly None — value is rendered. -/
def optToStr : Option String → String
  | none => "None"
  | some s => s

/-- One source block of the synthesis context built by get_relevant_answer.
The content line is guarded by a key-membership test in Python; the pipeline
always attaches content, so the line is always present here. -/
def sourceBlock (res : EnrichedResult) : String :=
  "Source: " ++ optToStr res.title ++ " (" ++ optToStr res.link ++ ")\n"
    ++ "Description: " ++ optToStr res.description ++ "\n"
    ++ "Content: " ++ res.content ++ "\n"
    ++ "---\n"

/-- The context string accumulated by the source loop of
get_relevant_answer. -/
def buildContext (search_results : List EnrichedResult) : String :=
  search_results.foldl (fun acc res => acc ++ sourceBlock res) ""

/-- The f-string prompt built by get_relevant_answer. -/
def synthPrompt (user_query : String) (context : String) : String :=
  "\n    Answer the user query based ONLY on the provided search results.\n    Cite the sources if possible.\n    \n    User Query: \"" ++ user_query ++ "\"\n    \n    Search Results:\n    " ++ context ++ "\n    "

/-- Embedding of get_relevant_answer: build the context, issue one LLM
completion, return its outcome as-is (None on failure). -/
def get_relevant_answer (env : Env) (user_query : String)
    (search_results : List EnrichedResult) : Option String :=
  env.llm (synthPrompt user_query (buildContext search_results))

/-- The body of the dedup loop of web_search_task: carry the pair of the
seen-links collection and the accumulated unique results; append a candidate
only if its link has not been seen, then mark it seen.  (The Python set of
seen links is modelled as the list of seen keys — only membership is
used.) -/
def dedupStep (p : List (Option String) × List SearchResult)
    (r : SearchResult) : List (Option String) × List SearchResult :=
  if r.link ∈ p.1 then p else (r.link :: p.1, p.2 ++ [r])

/-- The unique-results list of web_search_task: first-occurrence-wins dedup
of the combined candidate list, keyed on link, written as the loop is. -/
def dedupe (all_results : List SearchResult) : List SearchResult :=
  (all_results.foldl dedupStep ([], [])).2

/-- The Deduplicator/Selector stage of the pipeline (lines 109 to 119 of
websearch.py): dedup by link, then truncate to the first topK entries (the
code slices the unique results to the first 3, so topK = 3 there). -/
def dedupeAndSelect (candidates : List SearchResult) (topK : Nat) :
    List SearchResult :=
  (dedupe candidates).take topK

/-- Embedding of web_search_task, transcribed loop by loop:
step 1 decompose; step 2 search each sub-query with num_results 2, extending
the combined result list; dedup by link; step 3 scrape the first 3 unique
results, attaching content; step 4 synthesize and return the answer. -/
def web_search_task (env : Env) (user_query : String) : Option String :=
  let sub_queries := decompose_query env user_query
  let all_results :=
    sub_queries.foldl (fun acc q => acc ++ perform_search env q 2) []
  let unique_results := (all_results.foldl dedupStep ([], [])).2
  let final_results :=
    (unique_results.take 3).foldl
      (fun acc res =>
        acc ++ [⟨res.title, res.link, res.description,
                 scrape_content env res.link⟩]) []
  get_relevant_answer env user_query final_results

/-- The sources handed to the Synthesizer by a run of web_search_task,
written compositionally (stages 1 to 3 of the pipeline). -/
def pipelineSources (env : Env) (user_query : String) : List EnrichedResult :=
  let sub_queries := decompose_query env user_query
  let all_results := (sub_queries.map (fun q => perform_search env q 2)).flatten
  (dedupeAndSelect all_results 3).map
    (fun res => ⟨res.title, res.link, res.description,
                 scrape_content env res.link⟩)

/-- Recursive presentation of the dedup loop, convenient for induction; it
is proved equal to the foldl form below. -/
def dedupeGo : List (Option String) → List SearchResult → List SearchResult
  | _, [] => []
  | seen, r :: rest =>
    if r.link ∈ seen then dedupeGo seen rest
    else r :: dedupeGo (r.link :: seen) rest

/-- Modelled from the words of the claim about the Deduplicator/Selector:
the subsequence of the candidates whose link value occurs for the first time
at that position.  A candidate is kept exactly when its link is not among
the links of all preceding candidates (the accumulator collects the links of
every candidate already passed, kept or not). -/
def specSelect : List SearchResult → List (Option String) → List SearchResult
  | [], _ => []
  | r :: rest, prev =>
    if r.link ∈ prev then specSelect rest (r.link :: prev)
    else r :: specSelect rest (r.link :: prev)

/-- An environment in which every external call fails: the LLM returns no
content, the search, the fetch and the extraction raise. -/
def envFail : Env :=
  ⟨fun _ => none, fun _ _ => Except.error ("boom"),
   fun _ => Except.error ("timeout"), fun _ => Except.error ("parse")⟩

/-- An environment whose LLM answers every prompt with a single space — a
non-empty response whose parse is empty. -/
def envWs : Env :=
  ⟨fun _ => some (" "), fun _ _ => Except.error ("boom"),
   fun _ => Except.error ("timeout"), fun b => Except.ok b⟩

/-- An environment whose LLM answers every prompt with a line consisting of
exactly two double-quote characters. -/
def envQQ : Env :=
  ⟨fun _ => some ("\"\""), fun _ _ => Except.error ("boom"),
   fun _ => Except.error ("timeout"), fun b => Except.ok b⟩

/-- An environment whose LLM answers every prompt with two lines, alpha and
beta. -/
def envTwoLines : Env :=
  ⟨fun _ => some ("alpha\nbeta"), fun _ _ => Except.error ("boom"),
   fun _ => Except.error ("timeout"), fun b => Except.ok b⟩

/-- An environment whose fetch answers every URL with a 301 status and a
small body, and whose extraction succeeds (modelled as the identity on the
already-plain body).  Status 301 is outside the raising range of
raise_for_status, so the scrape proceeds. -/
def env301 : Env :=
  ⟨fun _ => none, fun _ _ => Except.error ("boom"),
   fun _ => Except.ok ⟨301, ("moved")⟩, fun b => Except.ok b⟩

/-- Two raw provider results, both lacking the href field. -/
def rawNoHref : List RawResult :=
  [⟨some ("t1"), none, some ("d1")⟩, ⟨some ("t2"), none, some ("d2")⟩]

/-- An environment whose search succeeds with two href-less results. -/
def envNoHref : Env :=
  ⟨fun _ => none, fun _ _ => Except.ok rawNoHref,
   fun _ => Except.error ("timeout"), fun b => Except.ok b⟩

/-- A candidate list with two link-less results of differing titles and a
linked one, exercising the dedup treatment of the None key. -/
def candNoLink : List SearchResult :=
  [⟨some ("t1"), none, some ("d1")⟩, ⟨some ("t2"), none, some ("d2")⟩,
   ⟨some ("t3"), some ("u"), none⟩]

/-- The foldl form of the dedup loop agrees with the recursive form, for any
starting seen-set and accumulator. -/
theorem foldl_dedupStep_eq (rs : List SearchResult) :
    ∀ seen acc, (rs.foldl dedupStep (seen, acc)).2 = acc ++ dedupeGo seen rs := by
  induction rs with
  | nil => intro seen acc; simp [dedupeGo]
  | cons r rest ih =>
    intro seen acc
    by_cases h : r.link ∈ seen
    · simp [List.foldl_cons, dedupStep, dedupeGo, h, ih]
    · simp [List.foldl_cons, dedupStep, dedupeGo, h, ih]

/-- The dedup loop equals its recursive presentation. -/
theorem dedupe_eq_dedupeGo (rs : List SearchResult) :
    dedupe rs = dedupeGo [] rs := by
  simp [dedupe, foldl_dedupStep_eq]

/-- Every result kept by the dedup loop has a link outside the starting
seen-set. -/
theorem mem_dedupeGo_not_mem_seen (rs : List SearchResult) :
    ∀ seen r, r ∈ dedupeGo seen rs → r.link ∉ seen := by
  induction rs with
  | nil => intro seen r h; simp [dedupeGo] at h
  | cons x rest ih =>
    intro seen r h
    simp only [dedupeGo] at h
    by_cases hx : x.link ∈ seen
    · rw [if_pos hx] at h
      exact ih seen r h
    · rw [if_neg hx] at h
      rcases List.mem_cons.mp h with rfl | h2
      · exact hx
      · intro hmem
        exact ih (x.link :: seen) r h2 (List.mem_cons_of_mem _ hmem)

/-- The links of the dedup output are pairwise distinct. -/
theorem dedupeGo_links_nodup (rs : List SearchResult) :
    ∀ seen, ((dedupeGo seen rs).map (fun r => r.link)).Nodup := by
  induction rs with
  | nil => intro seen; simp [dedupeGo]
  | cons x rest ih =>
    intro seen
    simp only [dedupeGo]
    by_cases hx : x.link ∈ seen
    · rw [if_pos hx]; exact ih seen
    · rw [if_neg hx]
      simp only [List.map_cons, List.nodup_cons]
      refine ⟨?_, ih _⟩
      intro hmem
      rcases List.mem_map.mp hmem with ⟨r, hr, hlink⟩
      exact mem_dedupeGo_not_mem_seen rest _ r hr
        (by rw [hlink]; exact List.mem_cons_self _ _)

/-- On a list whose links are pairwise distinct and disjoint from the
seen-set, the dedup loop is the identity. -/
theorem dedupeGo_eq_self (rs : List SearchResult) :
    ∀ seen, ((rs.map (fun r => r.link)).Nodup) →
      (∀ r ∈ rs, r.link ∉ seen) → dedupeGo seen rs = rs := by
  induction rs with
  | nil => intro seen _ _; simp [dedupeGo]
  | cons x rest ih =>
    intro seen hnd hfresh
    have hnd' : (x.link :: rest.map (fun r => r.link)).Nodup := by
      simpa using hnd
    simp only [dedupeGo]
    rw [if_neg (hfresh x (List.mem_cons_self _ _))]
    congr 1
    apply ih
    · exact (List.nodup_cons.mp hnd').2
    · intro r hr hmem
      rcases List.mem_cons.mp hmem with heq | hmem2
      · exact (List.nodup_cons.mp hnd').1
          (by rw [← heq]; exact List.mem_map_of_mem _ hr)
      · exact hfresh r (List.mem_cons_of_mem _ hr) hmem2

/-- The dedup output is a sublist of its input. -/
theorem dedupeGo_sublist (rs : List SearchResult) :
    ∀ seen, (dedupeGo seen rs).Sublist rs := by
  induction rs with
  | nil => intro seen; simp [dedupeGo]
  | cons x rest ih =>
    intro seen
    simp only [dedupeGo]
    by_cases hx : x.link ∈ seen
    · rw [if_pos hx]; exact (ih seen).cons x
    · rw [if_neg hx]; exact (ih _).cons₂ x

/-- The first-occurrence selection of the claim equals the dedup loop, for
any pair of accumulators with the same members. -/
theorem specSelect_eq_dedupeGo (rs : List SearchResult) :
    ∀ prev seen, (∀ k : Option String, k ∈ prev ↔ k ∈ seen) →
      specSelect rs prev = dedupeGo seen rs := by
  induction rs with
  | nil => intro prev seen _; simp [specSelect, dedupeGo]
  | cons x rest ih =>
    intro prev seen hps
    simp only [specSelect, dedupeGo]
    by_cases hx : x.link ∈ prev
    · rw [if_pos hx, if_pos ((hps _).mp hx)]
      apply ih
      intro k
      simp only [List.mem_cons]
      constructor
      · rintro (rfl | hk)
        · exact (hps _).mp hx
        · exact (hps _).mp hk
      · intro hk
        exact Or.inr ((hps _).mpr hk)
    · rw [if_neg hx, if_neg (fun h => hx ((hps _).mpr h))]
      congr 1
      apply ih
      intro k
      simp only [List.mem_cons]
      exact or_congr Iff.rfl (hps k)

/-- For a key already seen, the dedup output has no entry with that link. -/
theorem dedupeGo_filter_seen (rs : List SearchResult)
    (seen : List (Option String)) (k : Option String) (hk : k ∈ seen) :
    (dedupeGo seen rs).filter (fun r => r.link = k) = [] := by
  rw [List.filter_eq_nil_iff]
  intro r hr
  simp only [decide_eq_true_eq]
  intro heq
  exact mem_dedupeGo_not_mem_seen rs seen r hr (by rw [heq]; exact hk)

/-- For a key not yet seen, the dedup output keeps exactly the first input
entry carrying that link. -/
theorem dedupeGo_filter_fresh (rs : List SearchResult) :
    ∀ seen k, k ∉ seen →
      (dedupeGo seen rs).filter (fun r => r.link = k)
        = (rs.filter (fun r => r.link = k)).take 1 := by
  induction rs with
  | nil => intro seen k _; simp [dedupeGo]
  | cons x rest ih =>
    intro seen k hk
    simp only [dedupeGo]
    by_cases hx : x.link ∈ seen
    · rw [if_pos hx]
      have hne : ¬ (x.link = k) := fun h => hk (h ▸ hx)
      rw [List.filter_cons_of_neg (by simpa using hne), ih seen k hk]
    · rw [if_neg hx]
      by_cases hxk : x.link = k
      · rw [List.filter_cons_of_pos (by simpa using hxk),
          List.filter_cons_of_pos (by simpa using hxk),
          dedupeGo_filter_seen rest (x.link :: seen) k
            (by rw [← hxk]; exact List.mem_cons_self _ _)]
        simp
      · rw [List.filter_cons_of_neg (by simpa using hxk),
          List.filter_cons_of_neg (by simpa using hxk)]
        apply ih
        intro hmem
        rcases List.mem_cons.mp hmem with heq | hmem2
        · exact hxk heq.symm
        · exact hk hmem2

/-- The dedup output is no longer than the number of distinct links of the
input. -/
theorem dedupeGo_length_le_dedup (cs : List SearchResult) :
    (dedupeGo [] cs).length ≤ ((cs.map (fun r => r.link)).dedup).length := by
  have hnd := dedupeGo_links_nodup cs []
  have hsub : (dedupeGo [] cs).map (fun r => r.link)
      ⊆ (cs.map (fun r => r.link)).dedup := by
    intro k hk
    rw [List.mem_dedup]
    exact List.map_subset _ (dedupeGo_sublist cs []).subset hk
  have := (List.subperm_of_subset hnd hsub).length_le
  simpa using this

/-- C2: for every candidate list, dedupeAndSelect returns exactly the
first-occurrence-wins subsequence of the candidates (keyed on link, input
order preserved) truncated to the first topK entries; no two entries of the
output have equal link; and the output length is at most the minimum of topK
and the number of distinct links.  (The pipeline instantiates topK = 3.) -/
theorem dedupeAndSelect_first_occurrence (candidates : List SearchResult)
    (topK : Nat) :
    dedupeAndSelect candidates topK = (specSelect candidates []).take topK
    ∧ ((dedupeAndSelect candidates topK).map (fun r => r.link)).Nodup
    ∧ (dedupeAndSelect candidates topK).length
        ≤ min topK (((candidates.map (fun r => r.link)).dedup).length) := by
  refine ⟨?_, ?_, ?_⟩
  · rw [dedupeAndSelect, dedupe_eq_dedupeGo,
      specSelect_eq_dedupeGo candidates [] [] (fun k => Iff.rfl)]
  · rw [dedupeAndSelect, dedupe_eq_dedupeGo]
    exact List.Nodup.sublist ((List.take_sublist _ _).map _)
      (dedupeGo_links_nodup candidates [])
  · rw [dedupeAndSelect, dedupe_eq_dedupeGo, List.length_take]
    exact min_le_min (le_refl topK) (dedupeGo_length_le_dedup candidates)

/-- C8: dedupeAndSelect is idempotent — applied with the same topK to its
own output it returns that output unchanged. -/
theorem dedupeAndSelect_idempotent (candidates : List SearchResult)
    (topK : Nat) :
    dedupeAndSelect (dedupeAndSelect candidates topK) topK
      = dedupeAndSelect candidates topK := by
  have key : dedupe (dedupeAndSelect candidates topK)
      = dedupeAndSelect candidates topK := by
    rw [dedupeAndSelect, dedupe_eq_dedupeGo, dedupe_eq_dedupeGo]
    apply dedupeGo_eq_self
    · exact List.Nodup.sublist ((List.take_sublist _ _).map _)
        (dedupeGo_links_nodup candidates [])
    · intro r _
      simp
  rw [dedupeAndSelect, key, dedupeAndSelect, dedupe_eq_dedupeGo,
    List.take_take, min_self]

/-- C9: when a provider result lacks the href field, perform_search still
emits it with link = none (the link column of the output is exactly the href
column of the raw results), and the deduplicator treats the none key like
any other: among the entries without a link, exactly the first survives the
dedup, whatever their titles or descriptions. -/
theorem perform_search_none_link_collapse (env : Env) (query : String)
    (n : Nat) (rs : List RawResult) (candidates : List SearchResult)
    (h : env.search query n = Except.ok rs) :
    (perform_search env query n).map (fun r => r.link)
        = rs.map (fun r => r.href)
    ∧ (dedupe candidates).filter (fun r => r.link = none)
        = (candidates.filter (fun r => r.link = none)).take 1 := by
  constructor
  · simp [perform_search, h]
  · rw [dedupe_eq_dedupeGo]
    exact dedupeGo_filter_fresh candidates [] none (by simp)

/-- Witness for C9 at a concrete environment: a search returning two
href-less results, and a candidate list with two link-less entries of
different titles. -/
theorem perform_search_none_link_collapse_witness :
    (perform_search envNoHref ("q") 2).map (fun r => r.link)
        = rawNoHref.map (fun r => r.href)
    ∧ (dedupe candNoLink).filter (fun r => r.link = none)
        = (candNoLink.filter (fun r => r.link = none)).take 1 :=
  perform_search_none_link_collapse envNoHref ("q") 2 rawNoHref candNoLink rfl

/-- C3: decompose_query always returns a non-empty list; when the LLM call
fails (no response), or succeeds but the parsed list is empty, it returns
the singleton of the original query verbatim. -/
theorem decompose_query_nonempty (env : Env) (user_query : String) :
    decompose_query env user_query ≠ []
    ∧ (env.llm (decompPrompt user_query) = none →
        decompose_query env user_query = [user_query])
    ∧ (∀ response, env.llm (decompPrompt user_query) = some response →
        parseSubqueries response = [] →
        decompose_query env user_query = [user_query]) := by
  refine ⟨?_, ?_, ?_⟩
  · unfold decompose_query
    cases h : env.llm (decompPrompt user_query) with
    | none => simp
    | some s =>
      by_cases hs : s = ""
      · simp [hs]
      · by_cases hq : parseSubqueries s = []
        · simp [hs, hq]
        · simp [hs, hq]
  · intro h
    unfold decompose_query
    rw [h]
  · intro response h hp
    unfold decompose_query
    rw [h]
    by_cases hs : response = ""
    · simp [hs]
    · simp [hs, hp]

/-- Witness for C3: with the all-failing environment, decomposition of the
query of the spec scenario falls back to the singleton of that query. -/
theorem decompose_query_nonempty_witness :
    decompose_query envFail ("best hiking trails") = ["best hiking trails"] :=
  (decompose_query_nonempty envFail ("best hiking trails")).2.1 rfl

/-- Counterexample to C4 as stated: a 301 response is a non-2xx HTTP status,
yet raise_for_status raises only for 400 to 599, so the code does not
convert it to the empty string — it scrapes the body normally and returns
its text. -/
theorem scrape_content_3xx_counterexample :
    env301.httpGet ("http://example.com") = Except.ok ⟨301, ("moved")⟩
    ∧ ¬ (200 ≤ 301 ∧ 301 < 300)
    ∧ scrape_content env301 (some ("http://example.com")) = "moved"
    ∧ scrape_content env301 (some ("http://example.com")) ≠ "" := by
  refine ⟨rfl, by decide, rfl, ?_⟩
  rw [show scrape_content env301 (some ("http://example.com")) = ("moved")
    from rfl]
  decide

/-- C4 amended: scrape_content never raises — a failing fetch (error outcome
of the HTTP get: timeout, DNS failure, connection error), a status in the
raising range of raise_for_status (400 to 599), or a failing extraction, is
caught and converted to the empty string; likewise the missing-URL case.  A
non-raising non-2xx status (a surfacing 3xx) is scraped normally. -/
theorem scrape_content_failure_empty (env : Env) (url : String)
    (h : (∃ e, env.httpGet url = Except.error e)
      ∨ (∃ resp, env.httpGet url = Except.ok resp
          ∧ 400 ≤ resp.status ∧ resp.status < 600)
      ∨ (∃ resp e, env.httpGet url = Except.ok resp
          ∧ ¬ (400 ≤ resp.status ∧ resp.status < 600)
          ∧ env.extractText resp.body = Except.error e)) :
    scrape_content env (some url) = "" ∧ scrape_content env none = "" := by
  refine ⟨?_, rfl⟩
  rcases h with ⟨e, he⟩ | ⟨resp, hr, hs1, hs2⟩ | ⟨resp, e, hr, hs, hx⟩
  · simp [scrape_content, he]
  · simp [scrape_content, hr, hs1, hs2]
  · simp [scrape_content, hr, hs, hx]

/-- Witness for C4: in the all-failing environment the fetch errors out and
the scrape of a concrete URL returns the empty string. -/
theorem scrape_content_failure_empty_witness :
    scrape_content envFail (some ("http://example.com")) = ""
    ∧ scrape_content envFail none = "" :=
  scrape_content_failure_empty envFail ("http://example.com")
    (Or.inl ⟨"timeout", rfl⟩)

/-- C5: for every environment and URL (present or missing), the string
returned by scrape_content has at most 2000 characters. -/
theorem scrape_content_length_le (env : Env) (url : Option String) :
    (scrape_content env url).length ≤ 2000 := by
  unfold scrape_content
  split
  · decide
  · split
    · decide
    · split
      · decide
      · split
        · decide
        · rename_i text
          simp only [pyTake, String.length]
          rw [List.length_take]
          exact Nat.min_le_left _ _

/-- C6: when the underlying search call fails for any reason, perform_search
returns the empty list instead of propagating the error. -/
theorem perform_search_error_empty (env : Env) (query : String) (n : Nat)
    (e : String) (h : env.search query n = Except.error e) :
    perform_search env query n = [] := by
  simp [perform_search, h]

/-- Witness for C6: the all-failing environment makes the search raise and
perform_search return the empty list. -/
theorem perform_search_error_empty_witness :
    perform_search envFail ("anything") 2 = [] :=
  perform_search_error_empty envFail ("anything") 2 ("boom") rfl

/-- Counterexample to C7 as stated: the environment envWs returns the
non-empty model response consisting of a single space; the parse the claim
describes (split on line breaks, discard blank lines, trim and unquote the
rest) is empty there, and decompose_query returns the fallback singleton of
the original query instead of that empty parse. -/
theorem decompose_query_parse_counterexample :
    (" " : String) ≠ ""
    ∧ decompose_query envWs ("q")
        ≠ ((splitOnNl (" ")).filter (fun l => pyStrip l ≠ "")).map
            (fun l => stripQuotes (pyStrip l)) := by
  constructor
  · decide
  · intro h
    have h1 : decompose_query envWs ("q") = ["q"] := rfl
    have h2 : ((splitOnNl (" ")).filter (fun l => pyStrip l ≠ "")).map
        (fun l => stripQuotes (pyStrip l)) = ([] : List String) := rfl
    rw [h1, h2] at h
    exact List.cons_ne_nil _ _ h

/-- C7 amended: for every model response the LLM call actually returns whose
parse is non-empty, decompose_query returns exactly the parse of the
response — split on line breaks, keep the lines whose whitespace-trim is
non-empty, map each kept line to its whitespace-trim stripped of enclosing
double quotes — in line order. -/
theorem decompose_query_parses (env : Env) (user_query response : String)
    (h1 : env.llm (decompPrompt user_query) = some response)
    (h2 : ((splitOnNl response).filter (fun l => pyStrip l ≠ "")).map
            (fun l => stripQuotes (pyStrip l)) ≠ []) :
    decompose_query env user_query
      = ((splitOnNl response).filter (fun l => pyStrip l ≠ "")).map
          (fun l => stripQuotes (pyStrip l)) := by
  have hp : parseSubqueries response ≠ [] := h2
  unfold decompose_query
  rw [h1]
  by_cases hs : response = ""
  · exfalso
    apply hp
    rw [hs]
    rfl
  · show (if response = "" then [user_query]
      else if parseSubqueries response = [] then [user_query]
      else parseSubqueries response) = _
    rw [if_neg hs, if_neg hp]
    rfl

/-- Witness for C7 amended: a two-line response is parsed into its two
trimmed lines. -/
theorem decompose_query_parses_witness :
    decompose_query envTwoLines ("q")
      = ((splitOnNl ("alpha\nbeta")).filter (fun l => pyStrip l ≠ "")).map
          (fun l => stripQuotes (pyStrip l)) :=
  decompose_query_parses envTwoLines ("q") ("alpha\nbeta") rfl (by decide)

/-- C10: with a model response consisting of a single line of two
double-quote characters, the blank-line check (which precedes the quote
strip) keeps the line, and decompose_query returns the singleton list of the
empty string — so an empty sub-query can appear in the output. -/
theorem decompose_query_keeps_quoted_empty :
    decompose_query envQQ ("q") = [""]
    ∧ ("" : String) ∈ decompose_query envQQ ("q") := by
  refine ⟨rfl, ?_⟩
  rw [show decompose_query envQQ ("q") = [""] from rfl]
  exact List.mem_singleton.mpr rfl

/-- A left fold that appends a block per element is the flattened map. -/
theorem foldl_append_flatten {α β : Type} (f : α → List β) (l : List α) :
    ∀ acc, l.foldl (fun a x => a ++ f x) acc = acc ++ (l.map f).flatten := by
  induction l with
  | nil => intro acc; simp
  | cons x xs ih => intro acc; simp [ih]

/-- A left fold that appends a singleton per element is the map. -/
theorem foldl_append_singleton {α β : Type} (g : α → β) (l : List α) :
    ∀ acc, l.foldl (fun a x => a ++ [g x]) acc = acc ++ l.map g := by
  induction l with
  | nil => intro acc; simp
  | cons x xs ih => intro acc; simp [ih]

/-- C1: for every environment (hence every outcome of the external calls)
and every user query, web_search_task runs to completion and returns exactly
what the Synthesizer stage produced — the LLM outcome on the synthesis
prompt over the pipeline sources — and the answer is absent exactly when
that synthesis call produced none.  A failed decomposition, search or scrape
only shrinks the sources; it never makes the answer absent by itself.  (That
the orchestrator never raises is intrinsic to the embedding: every failure
branch of every stage is total and yields the fallback value.) -/
theorem web_search_task_returns_synth (env : Env) (user_query : String) :
    web_search_task env user_query
        = env.llm (synthPrompt user_query
            (buildContext (pipelineSources env user_query)))
    ∧ (web_search_task env user_query = none ↔
        env.llm (synthPrompt user_query
          (buildContext (pipelineSources env user_query))) = none) := by
  have h1 : web_search_task env user_query
      = env.llm (synthPrompt user_query
          (buildContext (pipelineSources env user_query))) := by
    rw [web_search_task, pipelineSources, get_relevant_answer]
    rw [foldl_append_flatten (fun q => perform_search env q 2)
      (decompose_query env user_query) []]
    rw [foldl_dedupStep_eq]
    rw [foldl_append_singleton
      (fun res : SearchResult => (⟨res.title, res.link, res.description,
        scrape_content env res.link⟩ : EnrichedResult))]
    rw [dedupeAndSelect, dedupe_eq_dedupeGo]
    simp
  exact ⟨h1, by rw [h1]⟩

end WebSearch
